import Mathlib

/-!
# Point-Cloud-Stream: verification of the core

Shallow embedding of the repository's core, and proofs of the spec's claims
about it.

* `src/utils/segmentation.py` — the 2D-to-3D label fusion engine
  (`segment_pcd_from_2d`): project a point cloud through a pinhole camera
  and assign each point the class id of the segmentation mask covering its
  reprojection.
* `src/pipeline_controller.py` — the pipeline orchestrator
  (`PipelineController`): capture/record toggles, window close, the
  asynchronous depth-pick protocol and the pointer gesture classifier.

Real numbers of the program (float tensors) are modelled as rationals `ℚ`;
machine integer indices as `ℤ`/`ℕ`.  The external neural detector is an
input: the engine receives its output — the masks already resized to the
frame's H×W (the bilinear `interpolate` of lines 18-23 is an external torch
op; the claims quantify over arbitrary resized score fields, which covers
every field the interpolation can produce) — as a list of `Det`.
-/

namespace PCS

/-- A 3D point (world frame), `points_3d` row. -/
abbrev Vec3 := ℚ × ℚ × ℚ

/-- One detector instance as the fusion engine consumes it: the soft mask
already resized to the frame's full H×W (`masks_resized[k]`, indexed as
`score v u`, i.e. row `v`, column `u`), plus the class id
(`res[0].boxes.cls[k]`, cast to int at line 78). -/
structure Det where
  score : ℤ → ℤ → ℚ
  cls : ℤ

/-- Row `i` of the 4×4 extrinsic applied to the homogeneous point `[p; 1]`
(source line 35: `points_3d_hom = cat([points_3d, ones])`, line 42:
`points_cam_hom = (extrinsic_torch @ points_3d_hom.T).T`). -/
def mulHom (E : Fin 4 → Fin 4 → ℚ) (p : Vec3) (i : Fin 4) : ℚ :=
  E i 0 * p.1 + E i 1 * p.2.1 + E i 2 * p.2.2 + E i 3 * 1

/-- Camera-frame coordinates of a point: the first three components of the
transformed homogeneous point (source line 43: `points_cam =
points_cam_hom[:, :3]`). -/
def points_cam_of (E : Fin 4 → Fin 4 → ℚ) (p : Vec3) : Vec3 :=
  (mulHom E p 0, mulHom E p 1, mulHom E p 2)

/-- `torch.round`: round half to even (banker's rounding), as used on the
projected pixel coordinates at lines 60-61. -/
def roundEven (q : ℚ) : ℤ :=
  if q - ⌊q⌋ < 1/2 then ⌊q⌋
  else if 1/2 < q - ⌊q⌋ then ⌊q⌋ + 1
  else if ⌊q⌋ % 2 = 0 then ⌊q⌋ else ⌊q⌋ + 1

/-- Pinhole projection of a camera-frame point to an integer pixel
(source lines 58-61): `u = round(x*fx/z + cx)`, `v = round(y*fy/z + cy)`. -/
def projectPixel (fx fy cx cy : ℚ) (c : Vec3) : ℤ × ℤ :=
  (roundEven (c.1 * fx / c.2.2 + cx), roundEven (c.2.1 * fy / c.2.2 + cy))

/-- The bounds test of line 64: `(u >= 0) & (u < W) & (v >= 0) & (v < H)`. -/
def inBounds (W H : ℕ) (uv : ℤ × ℤ) : Bool :=
  decide (0 ≤ uv.1) && decide (uv.1 < (W : ℤ)) &&
    decide (0 ≤ uv.2) && decide (uv.2 < (H : ℤ))

/-- `torch.max(·, dim=0)` over one pixel's column of mask scores: the
maximum value together with the index of its first (lowest) occurrence;
`none` exactly on the empty list (a zero-size reduction dimension, on which
`torch.max` raises). -/
def maxWithIdx : List ℚ → Option (ℚ × ℕ)
  | [] => none
  | s :: rest =>
    match maxWithIdx rest with
    | none => some (s, 0)
    | some mj => if s < mj.1 then some (mj.1, mj.2 + 1) else some (s, 0)

/-- `mask_values = masks_resized[:, v, u]` for one surviving point followed
by the max-reduction of line 73: all K scores at pixel `(u, v)`, reduced. -/
def maskMax (dets : List Det) (uv : ℤ × ℤ) : Option (ℚ × ℕ) :=
  maxWithIdx (dets.map fun d => d.score uv.2 uv.1)

/-- Placeholder detection for total indexing; never reached when the mask
index comes from `maskMax` (which returns indices below `dets.length`). -/
def defaultDet : Det := ⟨fun _ _ => 0, -1⟩

/-- The scatter of lines 74-78 for one surviving point `ip = (i, (u, v))`:
if its maximum mask score strictly exceeds the 0.5 threshold
(`valid_mask = mask_scores > threshold`), write that mask's class id at the
point's original index (`point_labels[valid_indices] = ...`); otherwise
leave the initialised sentinel untouched. -/
def scatterStep (dets : List Det) (acc : List ℤ) (ip : ℕ × (ℤ × ℤ)) : List ℤ :=
  match maskMax dets ip.2 with
  | some mj => if 1/2 < mj.1 then acc.set ip.1 (dets.getD mj.2 defaultDet).cls else acc
  | none => acc

/-- Lines 34-43: all N points transformed to camera frame (`points_cam`
before the depth filter). -/
def camList (extrinsic : Fin 4 → Fin 4 → ℚ) (points : List Vec3) : List Vec3 :=
  points.map (points_cam_of extrinsic)

/-- Lines 46-48: the depth filter, keeping each survivor paired with its
original index (`valid_depth = points_cam[:, 2] > 0`;
`indices = nonzero(valid_depth)`). -/
def survDepth (extrinsic : Fin 4 → Fin 4 → ℚ) (points : List Vec3) :
    List (ℕ × Vec3) :=
  (camList extrinsic points).enum.filter fun ic => decide (0 < ic.2.2.2)

/-- Lines 51-67: project the depth survivors to rounded pixels and keep
those inside `[0, W) × [0, H)`, each still paired with its original index
(`indices = indices[in_bounds]`). -/
def survivors (intrinsic : Fin 3 → Fin 3 → ℚ) (extrinsic : Fin 4 → Fin 4 → ℚ)
    (points : List Vec3) (H W : ℕ) : List (ℕ × (ℤ × ℤ)) :=
  (((survDepth extrinsic points).map fun ic =>
      (ic.1, projectPixel (intrinsic 0 0) (intrinsic 1 1) (intrinsic 0 2)
        (intrinsic 1 2) ic.2)).filter fun ip => inBounds W H ip.2)

/-- `segment_pcd_from_2d` (source lines 8-82), per-frame label fusion:

1. transform all N points to camera frame (`camList`, lines 34-43);
2. keep points with depth strictly positive, together with their original
   indices (`survDepth`, lines 46-48);
3. project survivors to rounded pixels and keep those inside
   `[0, W) × [0, H)` (`survivors`, lines 51-67);
4. read the K mask scores at each surviving pixel, max-reduce, threshold at
   0.5, and scatter the accepted class ids into a length-N array
   initialised to the sentinel -1 (`scatterStep`, lines 69-78).

`none` models the raised exception when the detection set is empty:
`torch.max(mask_values, dim=0)` at line 73 raises on a zero-size reduction
dimension (and upstream, `res[0].masks` is `None` when the detector found
nothing, so line 14 already raises). -/
def segment_pcd_from_2d (intrinsic : Fin 3 → Fin 3 → ℚ)
    (extrinsic : Fin 4 → Fin 4 → ℚ) (points : List Vec3) (H W : ℕ)
    (dets : List Det) : Option (List ℤ) :=
  if dets.isEmpty then none
  else
    some ((survivors intrinsic extrinsic points H W).foldl (scatterStep dets)
      (List.replicate points.length (-1)))

/-- The pixel a world point projects to: camera transform followed by the
pinhole projection with the intrinsic entries the source reads
(lines 51-54: `fx = intrinsic[0,0]`, `fy = intrinsic[1,1]`,
`cx = intrinsic[0,2]`, `cy = intrinsic[1,2]`). -/
def pixOf (intrinsic : Fin 3 → Fin 3 → ℚ) (extrinsic : Fin 4 → Fin 4 → ℚ)
    (p : Vec3) : ℤ × ℤ :=
  projectPixel (intrinsic 0 0) (intrinsic 1 1) (intrinsic 0 2)
    (intrinsic 1 2) (points_cam_of extrinsic p)

/-- The per-point meaning of the fusion pipeline: the label a single point
receives, by the case it falls in (depth test, bounds test, threshold
test).  Proved equal, pointwise, to what `segment_pcd_from_2d` scatters
(`segment_eq_map` below); every claim about a single point's label goes
through this characterisation. -/
def labelOfPoint (intrinsic : Fin 3 → Fin 3 → ℚ)
    (extrinsic : Fin 4 → Fin 4 → ℚ) (H W : ℕ) (dets : List Det)
    (p : Vec3) : ℤ :=
  if 0 < (points_cam_of extrinsic p).2.2 then
    if inBounds W H (pixOf intrinsic extrinsic p) then
      match maskMax dets (pixOf intrinsic extrinsic p) with
      | some mj => if 1/2 < mj.1 then (dets.getD mj.2 defaultDet).cls else -1
      | none => -1
    else -1
  else -1

/-! ### Characterisation of the scatter -/

lemma scatterStep_length (dets : List Det) (acc : List ℤ) (ip : ℕ × (ℤ × ℤ)) :
    (scatterStep dets acc ip).length = acc.length := by
  unfold scatterStep
  cases maskMax dets ip.2 with
  | none => rfl
  | some mj =>
    dsimp only
    split
    · exact List.length_set acc ip.1 _
    · rfl

lemma foldl_scatter_length (dets : List Det) (l : List (ℕ × (ℤ × ℤ)))
    (acc : List ℤ) : (l.foldl (scatterStep dets) acc).length = acc.length := by
  induction l generalizing acc with
  | nil => rfl
  | cons p rest ih => rw [List.foldl_cons, ih, scatterStep_length]

lemma scatterStep_getElem?_ne (dets : List Det) (acc : List ℤ)
    (ip : ℕ × (ℤ × ℤ)) (i : ℕ) (h : ip.1 ≠ i) :
    (scatterStep dets acc ip)[i]? = acc[i]? := by
  unfold scatterStep
  cases maskMax dets ip.2 with
  | none => rfl
  | some mj =>
    dsimp only
    split
    · exact List.getElem?_set_ne h
    · rfl

lemma foldl_scatter_getElem?_not_mem (dets : List Det)
    (l : List (ℕ × (ℤ × ℤ))) (acc : List ℤ) (i : ℕ)
    (h : ∀ p ∈ l, p.1 ≠ i) :
    (l.foldl (scatterStep dets) acc)[i]? = acc[i]? := by
  induction l generalizing acc with
  | nil => rfl
  | cons p rest ih =>
    rw [List.foldl_cons, ih _ fun q hq => h q (List.mem_cons_of_mem p hq),
      scatterStep_getElem?_ne _ _ _ _ (h p (List.mem_cons_self p rest))]

/-- What the scatter writes at the original index of a surviving point: the
argmax mask's class id when the maximum score strictly exceeds 1/2, the
accumulator's existing entry otherwise. -/
def scatterVal (dets : List Det) (uv : ℤ × ℤ) (old : Option ℤ) : Option ℤ :=
  match maskMax dets uv with
  | some mj => if 1/2 < mj.1 then some (dets.getD mj.2 defaultDet).cls else old
  | none => old

lemma scatterStep_getElem?_self (dets : List Det) (acc : List ℤ)
    (ip : ℕ × (ℤ × ℤ)) (hi : ip.1 < acc.length) :
    (scatterStep dets acc ip)[ip.1]? = scatterVal dets ip.2 acc[ip.1]? := by
  unfold scatterStep scatterVal
  cases maskMax dets ip.2 with
  | none => rfl
  | some mj =>
    dsimp only
    split
    · exact List.getElem?_set_eq_of_lt _ hi
    · rfl

lemma foldl_scatter_getElem?_mem (dets : List Det)
    (l : List (ℕ × (ℤ × ℤ))) (acc : List ℤ) (i : ℕ) (uv : ℤ × ℤ)
    (hpw : l.Pairwise fun a b => a.1 ≠ b.1) (hmem : (i, uv) ∈ l)
    (hi : i < acc.length) :
    (l.foldl (scatterStep dets) acc)[i]? = scatterVal dets uv acc[i]? := by
  induction l generalizing acc with
  | nil => exact absurd hmem (List.not_mem_nil _)
  | cons p rest ih =>
    rw [List.pairwise_cons] at hpw
    rw [List.foldl_cons]
    rcases List.mem_cons.mp hmem with heq | hrest
    · subst heq
      rw [foldl_scatter_getElem?_not_mem _ _ _ _ fun q hq => (hpw.1 q hq).symm,
        scatterStep_getElem?_self _ _ _ hi]
    · have hne : p.1 ≠ i := hpw.1 (i, uv) hrest
      have hlen : i < (scatterStep dets acc p).length := by
        rw [scatterStep_length]; exact hi
      rw [ih _ hpw.2 hrest hlen, scatterStep_getElem?_ne _ _ _ _ hne]

/-! ### Membership and distinctness of the survivor list -/

lemma mem_survivors_iff (intrinsic : Fin 3 → Fin 3 → ℚ)
    (extrinsic : Fin 4 → Fin 4 → ℚ) (points : List Vec3) (H W : ℕ)
    (i : ℕ) (uv : ℤ × ℤ) :
    (i, uv) ∈ survivors intrinsic extrinsic points H W ↔
      ∃ p, points[i]? = some p ∧
        0 < (points_cam_of extrinsic p).2.2 ∧
        uv = pixOf intrinsic extrinsic p ∧
        inBounds W H uv = true := by
  unfold survivors survDepth camList pixOf
  constructor
  · intro h
    obtain ⟨hmem, hb⟩ := List.mem_filter.mp h
    obtain ⟨ic, hic, hmap⟩ := List.mem_map.mp hmem
    obtain ⟨hen, hz⟩ := List.mem_filter.mp hic
    rw [List.mem_enum_iff_getElem?, List.getElem?_map] at hen
    obtain ⟨p, hp, hcast⟩ := Option.map_eq_some'.mp hen
    have hfst : ic.1 = i := congrArg Prod.fst hmap
    have hsnd := congrArg Prod.snd hmap
    subst hfst
    refine ⟨p, hp, ?_, ?_, hb⟩
    · rw [← hcast] at hz; exact of_decide_eq_true hz
    · rw [← hcast] at hsnd; simpa using hsnd.symm
  · rintro ⟨p, hp, hz, huv, hb⟩
    refine List.mem_filter.mpr ⟨?_, hb⟩
    refine List.mem_map.mpr ⟨(i, points_cam_of extrinsic p), ?_, by simp [huv]⟩
    refine List.mem_filter.mpr ⟨?_, by simpa using hz⟩
    rw [List.mem_enum_iff_getElem?, List.getElem?_map, hp]
    rfl

lemma survivors_pairwise (intrinsic : Fin 3 → Fin 3 → ℚ)
    (extrinsic : Fin 4 → Fin 4 → ℚ) (points : List Vec3) (H W : ℕ) :
    (survivors intrinsic extrinsic points H W).Pairwise
      fun a b => a.1 ≠ b.1 := by
  unfold survivors
  refine List.Pairwise.filter _ ?_
  rw [List.pairwise_map]
  have hsd : (survDepth extrinsic points).Pairwise fun a b => a.1 ≠ b.1 := by
    unfold survDepth
    have hnd : ((camList extrinsic points).enum.map Prod.fst).Nodup := by
      rw [List.enum_map_fst]; exact List.nodup_range _
    exact List.Pairwise.filter _ (List.pairwise_map.mp hnd)
  exact hsd.imp fun h => h

/-- Pointwise characterisation of the fusion pipeline: on a non-empty
detection set, `segment_pcd_from_2d` returns exactly the per-point label
map applied to the points in their original order. -/
lemma segment_eq_map (intrinsic : Fin 3 → Fin 3 → ℚ)
    (extrinsic : Fin 4 → Fin 4 → ℚ) (points : List Vec3) (H W : ℕ)
    (dets : List Det) (hK : dets ≠ []) :
    segment_pcd_from_2d intrinsic extrinsic points H W dets =
      some (points.map (labelOfPoint intrinsic extrinsic H W dets)) := by
  unfold segment_pcd_from_2d
  rw [if_neg (by simp [List.isEmpty_eq_false.mpr hK])]
  refine congrArg some (List.ext_getElem? fun n => ?_)
  rw [List.getElem?_map]
  by_cases hn : n < points.length
  · obtain ⟨p, hp⟩ : ∃ p, points[n]? = some p :=
      ⟨points[n], List.getElem?_eq_some.mpr ⟨hn, rfl⟩⟩
    rw [hp]
    by_cases hz : 0 < (points_cam_of extrinsic p).2.2
    · by_cases hb : inBounds W H (pixOf intrinsic extrinsic p) = true
      · have hmem := (mem_survivors_iff intrinsic extrinsic points H W
          n _).mpr ⟨p, hp, hz, rfl, hb⟩
        have hi : n < (List.replicate points.length (-1 : ℤ)).length := by
          simpa using hn
        rw [foldl_scatter_getElem?_mem dets _ _ n _
          (survivors_pairwise _ _ _ _ _) hmem hi,
          List.getElem?_replicate, if_pos hn]
        simp only [scatterVal, labelOfPoint, hz, hb, if_true,
          Option.map_some']
        cases maskMax dets (pixOf intrinsic extrinsic p) with
        | none => rfl
        | some mj => dsimp only; split <;> rfl
      · have hnot : ∀ q ∈ survivors intrinsic extrinsic points H W,
            q.1 ≠ n := by
          rintro ⟨j, uv⟩ hq hjn
          simp only at hjn
          subst hjn
          obtain ⟨p', hp', hz', huv', hb'⟩ :=
            (mem_survivors_iff _ _ _ _ _ _ _).mp hq
          rw [hp] at hp'
          cases hp'
          rw [huv'] at hb'
          exact hb hb'
        rw [foldl_scatter_getElem?_not_mem dets _ _ n hnot,
          List.getElem?_replicate, if_pos hn]
        simp only [labelOfPoint, hz, hb, if_true, Option.map_some',
          Bool.not_eq_true] at *
        simp [labelOfPoint, hz, hb]
    · have hnot : ∀ q ∈ survivors intrinsic extrinsic points H W,
          q.1 ≠ n := by
        rintro ⟨j, uv⟩ hq hjn
        simp only at hjn
        subst hjn
        obtain ⟨p', hp', hz', huv', hb'⟩ :=
          (mem_survivors_iff _ _ _ _ _ _ _).mp hq
        rw [hp] at hp'
        cases hp'
        exact hz hz'
      rw [foldl_scatter_getElem?_not_mem dets _ _ n hnot,
        List.getElem?_replicate, if_pos hn]
      simp [labelOfPoint, hz]
  · have h1 : ((survivors intrinsic extrinsic points H W).foldl
        (scatterStep dets) (List.replicate points.length (-1)))[n]? =
        (none : Option ℤ) := by
      apply List.getElem?_eq_none
      rw [foldl_scatter_length, List.length_replicate]
      exact le_of_not_lt hn
    have h2 : points[n]? = (none : Option Vec3) :=
      List.getElem?_eq_none (le_of_not_lt hn)
    rw [h1, h2]
    rfl

/-! ### Properties of the max-reduction -/

lemma maxWithIdx_cons_ne_none (s : ℚ) (rest : List ℚ) :
    maxWithIdx (s :: rest) ≠ none := by
  unfold maxWithIdx
  cases maxWithIdx rest with
  | none => simp
  | some mj => dsimp only; split <;> simp

lemma maxWithIdx_getElem? (l : List ℚ) (m : ℚ) (j : ℕ)
    (h : maxWithIdx l = some (m, j)) : l[j]? = some m := by
  induction l generalizing m j with
  | nil => exact absurd h (by simp [maxWithIdx])
  | cons s rest ih =>
    unfold maxWithIdx at h
    cases hrest : maxWithIdx rest with
    | none =>
      rw [hrest] at h
      simp only [Option.some.injEq, Prod.mk.injEq] at h
      rw [← h.2, ← h.1]
      exact List.getElem?_cons_zero
    | some mj =>
      rw [hrest] at h
      dsimp only at h
      split at h
      · simp only [Option.some.injEq, Prod.mk.injEq] at h
        rw [← h.2, ← h.1, List.getElem?_cons_succ]
        exact ih mj.1 mj.2 (by rw [hrest])
      · simp only [Option.some.injEq, Prod.mk.injEq] at h
        rw [← h.2, ← h.1]
        exact List.getElem?_cons_zero

lemma maxWithIdx_is_max (l : List ℚ) (m : ℚ) (j : ℕ)
    (h : maxWithIdx l = some (m, j)) :
    ∀ (k : ℕ) (x : ℚ), l[k]? = some x → x ≤ m := by
  induction l generalizing m j with
  | nil => exact absurd h (by simp [maxWithIdx])
  | cons s rest ih =>
    unfold maxWithIdx at h
    cases hrest : maxWithIdx rest with
    | none =>
      rw [hrest] at h
      have hnil : rest = [] := by
        cases rest with
        | nil => rfl
        | cons r rs => exact absurd hrest (maxWithIdx_cons_ne_none r rs)
      simp only [Option.some.injEq, Prod.mk.injEq] at h
      subst hnil
      intro k x hk
      cases k with
      | zero =>
        simp only [List.getElem?_cons_zero, Option.some.injEq] at hk
        rw [← hk, ← h.1]
      | succ k => simp at hk
    | some mj =>
      rw [hrest] at h
      dsimp only at h
      split at h
      · rename_i hlt
        simp only [Option.some.injEq, Prod.mk.injEq] at h
        intro k x hk
        cases k with
        | zero =>
          simp only [List.getElem?_cons_zero, Option.some.injEq] at hk
          rw [← hk, ← h.1]
          exact le_of_lt hlt
        | succ k =>
          rw [List.getElem?_cons_succ] at hk
          rw [← h.1]
          exact ih mj.1 mj.2 (by rw [hrest]) k x hk
      · rename_i hge
        simp only [Option.some.injEq, Prod.mk.injEq] at h
        intro k x hk
        cases k with
        | zero =>
          simp only [List.getElem?_cons_zero, Option.some.injEq] at hk
          rw [← hk, ← h.1]
        | succ k =>
          rw [List.getElem?_cons_succ] at hk
          have hx := ih mj.1 mj.2 (by rw [hrest]) k x hk
          rw [← h.1]
          exact le_trans hx (not_lt.mp hge)

lemma maxWithIdx_first_occurrence (l : List ℚ) (m : ℚ) (j : ℕ)
    (h : maxWithIdx l = some (m, j)) :
    ∀ k, k < j → ∀ (x : ℚ), l[k]? = some x → x < m := by
  induction l generalizing m j with
  | nil => exact absurd h (by simp [maxWithIdx])
  | cons s rest ih =>
    unfold maxWithIdx at h
    cases hrest : maxWithIdx rest with
    | none =>
      rw [hrest] at h
      simp only [Option.some.injEq, Prod.mk.injEq] at h
      intro k hk
      rw [← h.2] at hk
      exact absurd hk (Nat.not_lt_zero k)
    | some mj =>
      rw [hrest] at h
      dsimp only at h
      split at h
      · rename_i hlt
        simp only [Option.some.injEq, Prod.mk.injEq] at h
        intro k hk x hx
        cases k with
        | zero =>
          simp only [List.getElem?_cons_zero, Option.some.injEq] at hx
          rw [← hx, ← h.1]
          exact hlt
        | succ k =>
          rw [List.getElem?_cons_succ] at hx
          rw [← h.2] at hk
          rw [← h.1]
          exact ih mj.1 mj.2 (by rw [hrest]) k (Nat.lt_of_succ_lt_succ hk) x hx
      · simp only [Option.some.injEq, Prod.mk.injEq] at h
        intro k hk
        rw [← h.2] at hk
        exact absurd hk (Nat.not_lt_zero k)

lemma maxWithIdx_idx_lt (l : List ℚ) (m : ℚ) (j : ℕ)
    (h : maxWithIdx l = some (m, j)) : j < l.length :=
  (List.getElem?_eq_some.mp (maxWithIdx_getElem? l m j h)).1

/-! ### The rounding is to a nearest integer -/

lemma roundEven_nearest (q : ℚ) : |q - roundEven q| ≤ 1/2 := by
  unfold roundEven
  have h0 : (0:ℚ) ≤ q - ⌊q⌋ := by
    have := Int.floor_le q
    linarith
  have h1 : q - ⌊q⌋ < 1 := by
    have := Int.lt_floor_add_one q
    linarith
  split
  · rename_i h
    rw [abs_le]
    constructor <;> linarith
  · split
    · rename_i h h'
      push_cast
      rw [abs_le]
      constructor <;> linarith
    · split <;>
      · rename_i h h' h''
        push_cast
        rw [abs_le]
        constructor <;> linarith

/-! ### The three filters, and the labels they force -/

/-- A point is filtered out when it fails the depth test (line 46), the
bounds test (line 64), or the threshold test (line 75). -/
def isFiltered (intrinsic : Fin 3 → Fin 3 → ℚ)
    (extrinsic : Fin 4 → Fin 4 → ℚ) (H W : ℕ) (dets : List Det)
    (p : Vec3) : Prop :=
  (points_cam_of extrinsic p).2.2 ≤ 0 ∨
  inBounds W H (pixOf intrinsic extrinsic p) = false ∨
  ∀ mj, maskMax dets (pixOf intrinsic extrinsic p) = some mj → mj.1 ≤ 1/2

lemma labelOfPoint_of_filtered (intrinsic : Fin 3 → Fin 3 → ℚ)
    (extrinsic : Fin 4 → Fin 4 → ℚ) (H W : ℕ) (dets : List Det) (p : Vec3)
    (h : isFiltered intrinsic extrinsic H W dets p) :
    labelOfPoint intrinsic extrinsic H W dets p = -1 := by
  unfold labelOfPoint
  rcases h with hz | hb | ht
  · rw [if_neg (not_lt.mpr hz)]
  · by_cases hz : 0 < (points_cam_of extrinsic p).2.2
    · rw [if_pos hz, if_neg (by simp [hb])]
    · rw [if_neg hz]
  · by_cases hz : 0 < (points_cam_of extrinsic p).2.2
    · rw [if_pos hz]
      by_cases hb : inBounds W H (pixOf intrinsic extrinsic p) = true
      · rw [if_pos hb]
        cases hmax : maskMax dets (pixOf intrinsic extrinsic p) with
        | none => rfl
        | some mj =>
          dsimp only
          rw [if_neg (not_lt.mpr (ht mj hmax))]
      · rw [if_neg hb]
    · rw [if_neg hz]

/-- Both the full label array and the single-index view, packaged for the
claim theorems: on a non-empty detection set the call returns, the array
has length N, and entry n is the per-point label of point n. -/
lemma segment_label (intrinsic : Fin 3 → Fin 3 → ℚ)
    (extrinsic : Fin 4 → Fin 4 → ℚ) (points : List Vec3) (H W : ℕ)
    (dets : List Det) (hK : dets ≠ []) (n : ℕ) (hn : n < points.length) :
    ∃ ls, segment_pcd_from_2d intrinsic extrinsic points H W dets =
        some ls ∧ ls.length = points.length ∧
        ls[n]? = some (labelOfPoint intrinsic extrinsic H W dets points[n]) := by
  refine ⟨_, segment_eq_map intrinsic extrinsic points H W dets hK, by simp, ?_⟩
  rw [List.getElem?_map, List.getElem?_eq_getElem hn]
  rfl

/-! ### Concrete instances (spec §8 scenario and variants) -/

/-- Identity extrinsic: camera frame coincides with the world frame. -/
def idExtrinsic : Fin 4 → Fin 4 → ℚ :=
  ![![1,0,0,0], ![0,1,0,0], ![0,0,1,0], ![0,0,0,1]]

/-- Spec §8 pinhole intrinsic: fx = fy = 500, cx = 320, cy = 240. -/
def specIntrinsic : Fin 3 → Fin 3 → ℚ :=
  ![![500,0,320], ![0,500,240], ![0,0,1]]

/-- Full-frame detection with score 9/10 and class id 3 (spec §8). -/
def specDet : Det := ⟨fun _ _ => 9/10, 3⟩

/-- Full-frame detection whose score is exactly the 1/2 threshold,
class id 7. -/
def halfDet : Det := ⟨fun _ _ => 1/2, 7⟩

/-- First of two tied detections: score 3/4 everywhere, class id 5. -/
def tieDetA : Det := ⟨fun _ _ => 3/4, 5⟩

/-- Second of two tied detections: score 3/4 everywhere, class id 9. -/
def tieDetB : Det := ⟨fun _ _ => 3/4, 9⟩

/-- Rounding an integer leaves it unchanged. -/
lemma roundEven_intCast (k : ℤ) : roundEven (k : ℚ) = k := by
  unfold roundEven
  rw [Int.floor_intCast]
  norm_num

/-- Under the identity extrinsic the camera frame is the world frame. -/
lemma points_cam_of_id (p : Vec3) : points_cam_of idExtrinsic p = p := by
  obtain ⟨x, y, z⟩ := p
  show (mulHom idExtrinsic (x,y,z) 0, mulHom idExtrinsic (x,y,z) 1,
    mulHom idExtrinsic (x,y,z) 2) = (x,y,z)
  unfold mulHom
  have h00 : idExtrinsic 0 0 = 1 := rfl
  have h01 : idExtrinsic 0 1 = 0 := rfl
  have h02 : idExtrinsic 0 2 = 0 := rfl
  have h03 : idExtrinsic 0 3 = 0 := rfl
  have h10 : idExtrinsic 1 0 = 0 := rfl
  have h11 : idExtrinsic 1 1 = 1 := rfl
  have h12 : idExtrinsic 1 2 = 0 := rfl
  have h13 : idExtrinsic 1 3 = 0 := rfl
  have h20 : idExtrinsic 2 0 = 0 := rfl
  have h21 : idExtrinsic 2 1 = 0 := rfl
  have h22 : idExtrinsic 2 2 = 1 := rfl
  have h23 : idExtrinsic 2 3 = 0 := rfl
  rw [h00, h01, h02, h03, h10, h11, h12, h13, h20, h21, h22, h23]
  norm_num

/-- The spec §8 camera's pixel map in closed form. -/
lemma pixOf_spec_id (p : Vec3) : pixOf specIntrinsic idExtrinsic p =
    (roundEven (p.1 * 500 / p.2.2 + 320),
      roundEven (p.2.1 * 500 / p.2.2 + 240)) := by
  unfold pixOf projectPixel
  rw [points_cam_of_id]
  have e00 : specIntrinsic 0 0 = 500 := rfl
  have e11 : specIntrinsic 1 1 = 500 := rfl
  have e02 : specIntrinsic 0 2 = 320 := rfl
  have e12 : specIntrinsic 1 2 = 240 := rfl
  rw [e00, e11, e02, e12]

/-! ### The claims -/

/-- C1, counterexample: the claim quantifies over every detection set, but
with the empty detection set the engine returns no label array at all (the
max-reduction raises, embedded as `none`), let alone one of length N = 1. -/
theorem fusion_total_counterexample :
    segment_pcd_from_2d specIntrinsic idExtrinsic [(0,0,2)] 480 640 [] =
      none := rfl

/-- C1, amended to non-empty detection sets: for every input point cloud of
N points and every detection set with at least one mask,
`segment_pcd_from_2d` returns a label array of length exactly N, in the
original point order (entry n is the label of point n), and every point
filtered out by the depth test, the bounds test, or the threshold test
carries the sentinel -1 — filtered points are marked, never removed. -/
theorem fusion_length_order_sentinel
    (intrinsic : Fin 3 → Fin 3 → ℚ) (extrinsic : Fin 4 → Fin 4 → ℚ)
    (points : List Vec3) (H W : ℕ) (dets : List Det) (hK : dets ≠ []) :
    ∃ ls, segment_pcd_from_2d intrinsic extrinsic points H W dets =
        some ls ∧
      ls.length = points.length ∧
      (∀ (n : ℕ) (hn : n < points.length),
        ls[n]? = some (labelOfPoint intrinsic extrinsic H W dets
          points[n])) ∧
      (∀ (n : ℕ) (hn : n < points.length),
        isFiltered intrinsic extrinsic H W dets points[n] →
          ls[n]? = some (-1)) := by
  refine ⟨_, segment_eq_map intrinsic extrinsic points H W dets hK,
    by simp, ?_, ?_⟩
  · intro n hn
    rw [List.getElem?_map, List.getElem?_eq_getElem hn]
    rfl
  · intro n hn hf
    rw [List.getElem?_map, List.getElem?_eq_getElem hn]
    rw [Option.map_some']
    rw [labelOfPoint_of_filtered intrinsic extrinsic H W dets _ hf]

/-- C1 witness: the amended theorem applied at a 2-point cloud, one point in
front of the camera and one behind it; the filtered point keeps -1. -/
theorem fusion_length_order_sentinel_witness :
    ∃ ls, segment_pcd_from_2d specIntrinsic idExtrinsic
        [(0,0,2), (0,0,-1)] 480 640 [specDet] = some ls ∧
      ls.length = 2 ∧ ls[1]? = some (-1) := by
  obtain ⟨ls, hseg, hlen, _, hf⟩ :=
    fusion_length_order_sentinel specIntrinsic idExtrinsic
      [(0,0,2), (0,0,-1)] 480 640 [specDet] (by simp)
  refine ⟨ls, hseg, by simpa using hlen, hf 1 (by norm_num) ?_⟩
  left
  norm_num [points_cam_of, mulHom, idExtrinsic]

/-- C2: the claim is the intended contract, but the code does not meet it —
with K = 0 detection masks `segment_pcd_from_2d` does not return normally
at all: `torch.max(mask_values, dim=0)` raises on the zero-size mask
dimension (embedded as `none`), instead of producing the all-sentinel
array. -/
theorem fusion_empty_detections_raise (intrinsic : Fin 3 → Fin 3 → ℚ)
    (extrinsic : Fin 4 → Fin 4 → ℚ) (points : List Vec3) (H W : ℕ) :
    segment_pcd_from_2d intrinsic extrinsic points H W [] = none := rfl

/-- C3: the acceptance threshold is strict.  For a point surviving the
depth and bounds tests whose mask scores max-reduce to `(m, j)`: when
`m = 1/2` exactly, the point keeps the sentinel -1; when `1/2 < m`, the
point receives mask j's class id. -/
theorem fusion_threshold_strict
    (intrinsic : Fin 3 → Fin 3 → ℚ) (extrinsic : Fin 4 → Fin 4 → ℚ)
    (points : List Vec3) (H W : ℕ) (dets : List Det) (n : ℕ) (m : ℚ)
    (j : ℕ) (hK : dets ≠ []) (hn : n < points.length)
    (hz : 0 < (points_cam_of extrinsic points[n]).2.2)
    (hb : inBounds W H (pixOf intrinsic extrinsic points[n]) = true)
    (hmax : maskMax dets (pixOf intrinsic extrinsic points[n]) =
      some (m, j)) :
    ∃ ls, segment_pcd_from_2d intrinsic extrinsic points H W dets =
        some ls ∧
      (m = 1/2 → ls[n]? = some (-1)) ∧
      (1/2 < m → ls[n]? = some ((dets.getD j defaultDet).cls)) := by
  obtain ⟨ls, hseg, _, hlab⟩ :=
    segment_label intrinsic extrinsic points H W dets hK n hn
  rw [labelOfPoint, if_pos hz, if_pos hb, hmax] at hlab
  dsimp only at hlab
  refine ⟨ls, hseg, ?_, ?_⟩
  · intro hm
    subst hm
    rw [hlab, if_neg (lt_irrefl (1/2 : ℚ))]
  · intro hm
    rw [hlab, if_pos hm]

/-- C3 witness: a full-frame mask of score 9/10 labels the point with class
id 3, while a full-frame mask of score exactly 1/2 leaves it at -1. -/
theorem fusion_threshold_strict_witness :
    (∃ ls, segment_pcd_from_2d specIntrinsic idExtrinsic [(0,0,2)] 480 640
        [specDet] = some ls ∧ ls[0]? = some 3) ∧
    (∃ ls, segment_pcd_from_2d specIntrinsic idExtrinsic [(0,0,2)] 480 640
        [halfDet] = some ls ∧ ls[0]? = some (-1)) := by
  have hz : (0:ℚ) <
      (points_cam_of idExtrinsic ([((0:ℚ),(0:ℚ),(2:ℚ))][0])).2.2 := by
    norm_num [points_cam_of, mulHom, idExtrinsic]
  have hpix : pixOf specIntrinsic idExtrinsic ([((0:ℚ),(0:ℚ),(2:ℚ))][0]) =
      (320, 240) := by
    norm_num [pixOf, projectPixel, points_cam_of, mulHom, idExtrinsic,
      specIntrinsic, roundEven, Int.fract]
  have hb : inBounds 640 480
      (pixOf specIntrinsic idExtrinsic ([((0:ℚ),(0:ℚ),(2:ℚ))][0])) = true := by
    rw [hpix]
    decide
  constructor
  · obtain ⟨ls, hseg, _, hgt⟩ :=
      fusion_threshold_strict specIntrinsic idExtrinsic [(0,0,2)] 480 640
        [specDet] 0 (9/10) 0 (by simp) (by norm_num) hz hb rfl
    exact ⟨ls, hseg, hgt (by norm_num)⟩
  · obtain ⟨ls, hseg, heq, _⟩ :=
      fusion_threshold_strict specIntrinsic idExtrinsic [(0,0,2)] 480 640
        [halfDet] 0 (1/2) 0 (by simp) (by norm_num) hz hb rfl
    exact ⟨ls, hseg, heq rfl⟩

/-- C4: a point whose camera-frame depth z is ≤ 0 after the extrinsic
transform is labelled -1, regardless of the detection set's contents. -/
theorem fusion_depth_filter
    (intrinsic : Fin 3 → Fin 3 → ℚ) (extrinsic : Fin 4 → Fin 4 → ℚ)
    (points : List Vec3) (H W : ℕ) (dets : List Det) (n : ℕ)
    (hK : dets ≠ []) (hn : n < points.length)
    (hz : (points_cam_of extrinsic points[n]).2.2 ≤ 0) :
    ∃ ls, segment_pcd_from_2d intrinsic extrinsic points H W dets =
        some ls ∧ ls[n]? = some (-1) := by
  obtain ⟨ls, hseg, _, hlab⟩ :=
    segment_label intrinsic extrinsic points H W dets hK n hn
  rw [labelOfPoint_of_filtered intrinsic extrinsic H W dets _
    (Or.inl hz)] at hlab
  exact ⟨ls, hseg, hlab⟩

/-- C4 witness: a point one unit behind the camera keeps the sentinel even
under a full-frame mask of score 9/10. -/
theorem fusion_depth_filter_witness :
    ∃ ls, segment_pcd_from_2d specIntrinsic idExtrinsic [(0,0,-1)] 480 640
        [specDet] = some ls ∧ ls[0]? = some (-1) :=
  fusion_depth_filter specIntrinsic idExtrinsic [(0,0,-1)] 480 640
    [specDet] 0 (by simp) (by norm_num)
    (by norm_num [points_cam_of, mulHom, idExtrinsic])

/-- C5: for a point surviving the depth test, (a) its pixel is exactly
`(round(x·fx/z + cx), round(y·fy/z + cy))` in the camera frame, (b) the
rounding is to a nearest integer (the rounded value is within 1/2 of the
exact one), and (c) when the rounded pixel falls outside
`[0, W) × [0, H)` the point is labelled -1. -/
theorem fusion_projection_bounds_filter
    (intrinsic : Fin 3 → Fin 3 → ℚ) (extrinsic : Fin 4 → Fin 4 → ℚ)
    (points : List Vec3) (H W : ℕ) (dets : List Det) (n : ℕ)
    (hK : dets ≠ []) (hn : n < points.length)
    (hz : 0 < (points_cam_of extrinsic points[n]).2.2) :
    pixOf intrinsic extrinsic points[n] =
      (roundEven ((points_cam_of extrinsic points[n]).1 * intrinsic 0 0 /
          (points_cam_of extrinsic points[n]).2.2 + intrinsic 0 2),
        roundEven ((points_cam_of extrinsic points[n]).2.1 * intrinsic 1 1 /
          (points_cam_of extrinsic points[n]).2.2 + intrinsic 1 2)) ∧
    (∀ q : ℚ, |q - roundEven q| ≤ 1/2) ∧
    (inBounds W H (pixOf intrinsic extrinsic points[n]) = false →
      ∃ ls, segment_pcd_from_2d intrinsic extrinsic points H W dets =
        some ls ∧ ls[n]? = some (-1)) := by
  refine ⟨rfl, roundEven_nearest, fun hb => ?_⟩
  obtain ⟨ls, hseg, _, hlab⟩ :=
    segment_label intrinsic extrinsic points H W dets hK n hn
  rw [labelOfPoint_of_filtered intrinsic extrinsic H W dets _
    (Or.inr (Or.inl hb))] at hlab
  exact ⟨ls, hseg, hlab⟩

/-- C5 witness: the point (100, 0, 1) projects to pixel (50320, 240),
outside a 640×480 frame, and keeps the sentinel under a full-frame mask. -/
theorem fusion_projection_bounds_filter_witness :
    ∃ ls, segment_pcd_from_2d specIntrinsic idExtrinsic [(100,0,1)] 480 640
        [specDet] = some ls ∧ ls[0]? = some (-1) := by
  obtain ⟨-, -, hoob⟩ :=
    fusion_projection_bounds_filter specIntrinsic idExtrinsic [(100,0,1)]
      480 640 [specDet] 0 (by simp) (by norm_num)
      (by rw [points_cam_of_id]; norm_num)
  refine hoob ?_
  have hpix : pixOf specIntrinsic idExtrinsic ((100:ℚ),(0:ℚ),(1:ℚ)) =
      (50320, 240) := by
    rw [pixOf_spec_id]
    have h1 : ((100:ℚ),(0:ℚ),(1:ℚ)).1 * 500 /
        ((100:ℚ),(0:ℚ),(1:ℚ)).2.2 + 320 = ((50320:ℤ):ℚ) := by norm_num
    have h2 : ((100:ℚ),(0:ℚ),(1:ℚ)).2.1 * 500 /
        ((100:ℚ),(0:ℚ),(1:ℚ)).2.2 + 240 = ((240:ℤ):ℚ) := by norm_num
    rw [h1, h2, roundEven_intCast, roundEven_intCast]
  show inBounds 640 480
    (pixOf specIntrinsic idExtrinsic ((100:ℚ),(0:ℚ),(1:ℚ))) = false
  rw [hpix]
  decide

/-- C6: the max-reduction tie-break is deterministic, lowest mask index
wins: when the scores at the surviving point's pixel max-reduce to
`(m, j)`, mask j attains the maximum m, no mask beats m, every mask below
index j is strictly below m, and when m clears the threshold the point
receives mask j's class id. -/
theorem fusion_argmax_lowest_index
    (intrinsic : Fin 3 → Fin 3 → ℚ) (extrinsic : Fin 4 → Fin 4 → ℚ)
    (points : List Vec3) (H W : ℕ) (dets : List Det) (n : ℕ) (m : ℚ)
    (j : ℕ) (hK : dets ≠ []) (hn : n < points.length)
    (hz : 0 < (points_cam_of extrinsic points[n]).2.2)
    (hb : inBounds W H (pixOf intrinsic extrinsic points[n]) = true)
    (hmax : maskMax dets (pixOf intrinsic extrinsic points[n]) =
      some (m, j)) :
    j < dets.length ∧
    (dets.getD j defaultDet).score (pixOf intrinsic extrinsic points[n]).2
      (pixOf intrinsic extrinsic points[n]).1 = m ∧
    (∀ k, k < dets.length →
      (dets.getD k defaultDet).score
        (pixOf intrinsic extrinsic points[n]).2
        (pixOf intrinsic extrinsic points[n]).1 ≤ m) ∧
    (∀ k, k < j →
      (dets.getD k defaultDet).score
        (pixOf intrinsic extrinsic points[n]).2
        (pixOf intrinsic extrinsic points[n]).1 < m) ∧
    (1/2 < m →
      ∃ ls, segment_pcd_from_2d intrinsic extrinsic points H W dets =
        some ls ∧ ls[n]? = some ((dets.getD j defaultDet).cls)) := by
  have hmax' := hmax
  unfold maskMax at hmax'
  have hjlt : j < dets.length := by
    have := maxWithIdx_idx_lt _ _ _ hmax'
    simpa using this
  refine ⟨hjlt, ?_, ?_, ?_, ?_⟩
  · have hj := maxWithIdx_getElem? _ _ _ hmax'
    rw [List.getElem?_map, List.getElem?_eq_getElem hjlt,
      Option.map_some', Option.some.injEq] at hj
    rw [List.getD_eq_getElem?_getD, List.getElem?_eq_getElem hjlt]
    exact hj
  · intro k hk
    have hx := maxWithIdx_is_max _ _ _ hmax' k _
      (by rw [List.getElem?_map, List.getElem?_eq_getElem hk,
        Option.map_some'])
    rw [List.getD_eq_getElem?_getD, List.getElem?_eq_getElem hk]
    exact hx
  · intro k hk
    have hklt : k < dets.length := lt_trans hk hjlt
    have hx := maxWithIdx_first_occurrence _ _ _ hmax' k hk _
      (by rw [List.getElem?_map, List.getElem?_eq_getElem hklt,
        Option.map_some'])
    rw [List.getD_eq_getElem?_getD, List.getElem?_eq_getElem hklt]
    exact hx
  · intro hm
    obtain ⟨ls, hseg, _, hlab⟩ :=
      segment_label intrinsic extrinsic points H W dets hK n hn
    rw [labelOfPoint, if_pos hz, if_pos hb, hmax] at hlab
    dsimp only at hlab
    rw [if_pos hm] at hlab
    exact ⟨ls, hseg, hlab⟩

/-- C6 witness: two full-frame masks tied at score 3/4; the reduction picks
index 0 and the point receives class id 5 (of `tieDetA`), not 9. -/
theorem fusion_argmax_lowest_index_witness :
    ∃ ls, segment_pcd_from_2d specIntrinsic idExtrinsic [(0,0,2)] 480 640
        [tieDetA, tieDetB] = some ls ∧ ls[0]? = some 5 := by
  have hz : (0:ℚ) <
      (points_cam_of idExtrinsic ([((0:ℚ),(0:ℚ),(2:ℚ))][0])).2.2 := by
    norm_num [points_cam_of, mulHom, idExtrinsic]
  have hpix : pixOf specIntrinsic idExtrinsic ([((0:ℚ),(0:ℚ),(2:ℚ))][0]) =
      (320, 240) := by
    norm_num [pixOf, projectPixel, points_cam_of, mulHom, idExtrinsic,
      specIntrinsic, roundEven, Int.fract]
  have hb : inBounds 640 480
      (pixOf specIntrinsic idExtrinsic ([((0:ℚ),(0:ℚ),(2:ℚ))][0])) =
        true := by
    rw [hpix]
    decide
  have hmax : maskMax [tieDetA, tieDetB]
      (pixOf specIntrinsic idExtrinsic ([((0:ℚ),(0:ℚ),(2:ℚ))][0])) =
        some (3/4, 0) := by
    norm_num [maskMax, maxWithIdx, tieDetA, tieDetB]
  obtain ⟨-, -, -, -, hlab⟩ :=
    fusion_argmax_lowest_index specIntrinsic idExtrinsic [(0,0,2)] 480 640
      [tieDetA, tieDetB] 0 (3/4) 0 (by simp) (by norm_num) hz hb hmax
  exact hlab (by norm_num)

/-! ## The pipeline controller (`src/pipeline_controller.py`)

The controller owns three kinds of state it mutates: the producer model's
flags (`self.pipeline_model.*`), the view's fields
(`self.pipeline_view.*`), and its own gesture fields (`__init__` lines
30-32; `initial_point` and `rectangle_geometry` are assigned `None` once
and never read or reassigned, so they carry no information and are
omitted).  Condition-variable use (`with cv_capture: ...`) is embedded as
the trace of gate operations a callback performs, with a waiter-count
semantics for what notify/notify_all do to parked threads. -/

/-- The `PipelineModel` flags the controller mutates (external producer
state; the fields are exactly the attributes assigned in
`pipeline_controller.py`).  `model_init_calls` counts invocations of
`model_intialization()`. -/
structure ModelState where
  flag_capture : Bool
  flag_record : Bool
  flag_exit : Bool
  flag_save_pcd : Bool
  flag_save_rgbd : Bool
  flag_normals : Bool
  flag_model_init : Bool
  model_init_calls : ℕ
deriving DecidableEq

/-- The `PipelineView` fields the controller touches.
`mouse_handler_installed` is whether `pcdview.set_on_mouse` currently holds
the controller's handler (`set_on_mouse(self._on_mouse_widget3d)`) rather
than `None`; `toggle_record` is the record UI control's `is_on`, `none`
when the control does not exist. -/
structure ViewState where
  capturing : Bool
  edit_mode : Bool
  mouse_handler_installed : Bool
  toggle_record : Option Bool
  flag_normals : Bool
  flag_gui_init : Bool
deriving DecidableEq

/-- The controller state: model flags, view fields, and the controller's
own gesture flag (`self.drawing_rectangle`, line 30). -/
structure CtrlState where
  model : ModelState
  view : ViewState
  drawing_rectangle : Bool
deriving DecidableEq

/-- One operation on the CaptureGate (`cv_capture`): `with cv:` acquires
and then releases the underlying mutex; `notify` / `notify_all` wake
parked waiters. -/
inductive GateOp
  | acquire
  | notify
  | notifyAll
  | release
deriving DecidableEq

/-- Waiter-count semantics of a single gate operation: `notify` wakes at
most one parked waiter, `notify_all` wakes all of them. -/
def gateStep (waiters : ℕ) : GateOp → ℕ
  | GateOp.notify => waiters - 1
  | GateOp.notifyAll => 0
  | GateOp.acquire => waiters
  | GateOp.release => waiters

/-- Run a trace of gate operations over a waiter count. -/
def runGateOps (waiters : ℕ) (ops : List GateOp) : ℕ :=
  ops.foldl gateStep waiters

/-- `on_toggle_record` (lines 82-84): pass-through mutation of the model's
record flag. -/
def on_toggle_record (is_enabled : Bool) (s : CtrlState) : CtrlState :=
  { s with model := { s.model with flag_record := is_enabled } }

/-- `on_toggle_capture` (lines 60-79): set the view's `capturing`; install
the controller's mouse handler when not capturing, remove it when
capturing; set the model's capture flag; on disable additionally call
`on_toggle_record(False)` and force the record UI control (when it exists)
to off; on enable perform `with cv_capture: cv_capture.notify()`.  Returns
the new state and the trace of gate operations performed. -/
def on_toggle_capture (is_on : Bool) (s : CtrlState) : CtrlState × List GateOp :=
  let s1 := { s with view := { s.view with capturing := is_on } }
  let s2 := if !s1.view.capturing
    then { s1 with view := { s1.view with mouse_handler_installed := true } }
    else { s1 with view := { s1.view with mouse_handler_installed := false } }
  let s3 := { s2 with model := { s2.model with flag_capture := is_on } }
  if !is_on then
    let s4 := on_toggle_record false s3
    let s5 := match s4.view.toggle_record with
      | some _ => { s4 with view := { s4.view with toggle_record := some false } }
      | none => s4
    (s5, [])
  else
    (s3, [GateOp.acquire, GateOp.notify, GateOp.release])

/-- `on_toggle_normals` (lines 86-90). -/
def on_toggle_normals (is_enabled : Bool) (s : CtrlState) : CtrlState :=
  { s with
    model := { s.model with flag_normals := is_enabled },
    view := { s.view with flag_normals := is_enabled, flag_gui_init := false } }

/-- `on_window_close` (lines 92-97): set the exit flag, perform
`with cv_capture: cv_capture.notify_all()`, and return `True` ("OK to
close window").  Result: (new state, gate trace) and the returned bool. -/
def on_window_close (s : CtrlState) : (CtrlState × List GateOp) × Bool :=
  (({ s with model := { s.model with flag_exit := true } },
    [GateOp.acquire, GateOp.notifyAll, GateOp.release]), true)

/-- `on_save_pcd` (lines 99-101). -/
def on_save_pcd (s : CtrlState) : CtrlState :=
  { s with model := { s.model with flag_save_pcd := true } }

/-- `on_save_rgbd` (lines 108-110). -/
def on_save_rgbd (s : CtrlState) : CtrlState :=
  { s with model := { s.model with flag_save_rgbd := true } }

/-- `on_toggle_model_init` (lines 103-106): a synchronous
`model_intialization()` call, then the flag assignment. -/
def on_toggle_model_init (is_enabled : Bool) (s : CtrlState) : CtrlState :=
  { s with model := { s.model with
      model_init_calls := s.model.model_init_calls + 1,
      flag_model_init := is_enabled } }

/-- Pointer event type (`gui.MouseEvent.Type`). -/
inductive MouseEventType
  | buttonDown
  | buttonUp
  | drag
  | move
  | wheel
deriving DecidableEq

/-- A pointer event: its type, whether CTRL is held
(`is_modifier_down(CTRL)`), whether the left button is down
(`is_button_down(LEFT)`), and its window coordinates. -/
structure MouseEvent where
  type : MouseEventType
  ctrlDown : Bool
  leftDown : Bool
  x : ℤ
  y : ℤ
deriving DecidableEq

/-- `gui.Widget.EventCallbackResult`. -/
inductive EventResult
  | ignored
  | handled
deriving DecidableEq

/-- The 3D widget's viewport rectangle (`pcdview.frame`). -/
structure Frame where
  x : ℤ
  y : ℤ
  width : ℤ
  height : ℤ
deriving DecidableEq

/-- `_on_mouse_widget3d` (lines 112-167), the gesture classifier: returns
the new controller state, the event result, and the viewport-local pixel
of the asynchronous depth query when one was issued
(`render_to_depth_image`, line 152).

* Ignored while capturing (line 113) or outside edit mode (line 116).
* CTRL + left button down: translate to viewport-local coordinates; when
  inside the viewport, issue the depth query; handled either way
  (line 153 sits outside the bounds check).
* DRAG while `drawing_rectangle`: a no-op (`pass`), handled.
* BUTTON_UP while `drawing_rectangle`: clear the flag, handled.
* Everything else: ignored. -/
def on_mouse_widget3d (frame : Frame) (e : MouseEvent) (s : CtrlState) :
    CtrlState × EventResult × Option (ℤ × ℤ) :=
  if s.view.capturing then (s, EventResult.ignored, none)
  else if !s.view.edit_mode then (s, EventResult.ignored, none)
  else if e.type = MouseEventType.buttonDown ∧ e.ctrlDown ∧ e.leftDown then
    let x := e.x - frame.x
    let y := e.y - frame.y
    if 0 ≤ x ∧ x < frame.width ∧ 0 ≤ y ∧ y < frame.height then
      (s, EventResult.handled, some (x, y))
    else
      (s, EventResult.handled, none)
  else if e.type = MouseEventType.drag ∧ s.drawing_rectangle then
    (s, EventResult.handled, none)
  else if e.type = MouseEventType.buttonUp ∧ s.drawing_rectangle then
    ({ s with drawing_rectangle := false }, EventResult.handled, none)
  else (s, EventResult.ignored, none)

/-- The pick-result text (lines 135-142): either the "clicked on nothing"
message or a 3-component world coordinate. -/
inductive PickText
  | noHit
  | coord (w : ℚ × ℚ × ℚ)
deriving DecidableEq

/-- An effect of the depth-pick completion callback: post a closure to the
UI thread (`post_to_main_thread`, line 149) carrying the label update. -/
inductive UIEffect
  | postToMain (label : PickText)
deriving DecidableEq

/-- Lines 128-133: the depth sampled at the click; out-of-range pixels are
normalised to the far-plane sentinel 1.0 (`depth = 1.0  # Assign far plane
depth if out of bounds`). -/
def sampleDepth (rows cols : ℤ) (depth_array : ℤ → ℤ → ℚ) (x y : ℤ) : ℚ :=
  if y < rows ∧ x < cols then depth_array y x else 1

/-- `depth_callback` (lines 127-149): sample the depth; when it equals the
far-plane sentinel the text reports "clicked on nothing", otherwise the
pixel is unprojected through the current camera
(`scene.camera.unproject`, abstracted as `unproject`) to a world
coordinate; the label mutation itself is only posted to the UI thread,
never performed directly — the callback's entire effect is the single
post. -/
def depth_callback (rows cols : ℤ) (depth_array : ℤ → ℤ → ℚ)
    (unproject : ℤ → ℤ → ℚ → ℚ × ℚ × ℚ) (x y : ℤ) : List UIEffect :=
  let depth := sampleDepth rows cols depth_array x y
  let text := if depth = 1 then PickText.noHit
    else PickText.coord (unproject x y depth)
  [UIEffect.postToMain text]

/-! ### Reachable controller states -/

/-- The operations a controller can perform after construction (the
callbacks the view can invoke); mouse events carry the viewport frame and
the event data. -/
inductive CtrlOp
  | toggleCapture (b : Bool)
  | toggleRecord (b : Bool)
  | toggleNormals (b : Bool)
  | windowClose
  | savePcd
  | saveRgbd
  | toggleModelInit (b : Bool)
  | mouse (frame : Frame) (e : MouseEvent)

/-- Apply one operation to the controller state; gate traces, event
results and issued depth queries do not feed back into controller state
and are discarded here. -/
def applyOp (s : CtrlState) : CtrlOp → CtrlState
  | CtrlOp.toggleCapture b => (on_toggle_capture b s).1
  | CtrlOp.toggleRecord b => on_toggle_record b s
  | CtrlOp.toggleNormals b => on_toggle_normals b s
  | CtrlOp.windowClose => (on_window_close s).1.1
  | CtrlOp.savePcd => on_save_pcd s
  | CtrlOp.saveRgbd => on_save_rgbd s
  | CtrlOp.toggleModelInit b => on_toggle_model_init b s
  | CtrlOp.mouse frame e => (on_mouse_widget3d frame e s).1

/-- The controller state right after `__init__`: line 30 sets
`drawing_rectangle = False`; the model's and view's own constructors fix
their fields outside this file's scope, so they are arbitrary here. -/
def initCtrl (m : ModelState) (v : ViewState) : CtrlState :=
  { model := m, view := v, drawing_rectangle := false }

/-- A controller state the app can actually be in: reachable from some
initial state by a finite sequence of operations. -/
def Reachable (s : CtrlState) : Prop :=
  ∃ (m : ModelState) (v : ViewState) (ops : List CtrlOp),
    s = ops.foldl applyOp (initCtrl m v)

lemma on_mouse_widget3d_state (f : Frame) (e : MouseEvent) (s : CtrlState) :
    (on_mouse_widget3d f e s).1 = s ∨
    (on_mouse_widget3d f e s).1 = { s with drawing_rectangle := false } := by
  unfold on_mouse_widget3d
  split
  · exact Or.inl rfl
  split
  · exact Or.inl rfl
  split
  · dsimp only
    split
    · exact Or.inl rfl
    · exact Or.inl rfl
  split
  · exact Or.inl rfl
  split
  · exact Or.inr rfl
  · exact Or.inl rfl

lemma applyOp_drawing (s : CtrlState) (op : CtrlOp)
    (h : s.drawing_rectangle = false) :
    (applyOp s op).drawing_rectangle = false := by
  cases op with
  | toggleCapture b =>
    cases b with
    | false =>
      cases htr : s.view.toggle_record with
      | none => simp [applyOp, on_toggle_capture, on_toggle_record, htr, h]
      | some v => simp [applyOp, on_toggle_capture, on_toggle_record, htr, h]
    | true => simp [applyOp, on_toggle_capture, h]
  | toggleRecord b => simpa [applyOp, on_toggle_record] using h
  | toggleNormals b => simpa [applyOp, on_toggle_normals] using h
  | windowClose => simpa [applyOp, on_window_close] using h
  | savePcd => simpa [applyOp, on_save_pcd] using h
  | saveRgbd => simpa [applyOp, on_save_rgbd] using h
  | toggleModelInit b => simpa [applyOp, on_toggle_model_init] using h
  | mouse f e =>
    rcases on_mouse_widget3d_state f e s with heq | heq <;>
      simp [applyOp, heq, h]

lemma foldl_applyOp_drawing (ops : List CtrlOp) (s0 : CtrlState)
    (h : s0.drawing_rectangle = false) :
    (ops.foldl applyOp s0).drawing_rectangle = false := by
  induction ops generalizing s0 with
  | nil => exact h
  | cons op rest ih => exact ih _ (applyOp_drawing s0 op h)

/-- No reachable controller state has `drawing_rectangle` set: it starts
`False` and no operation ever assigns `True`. -/
lemma reachable_not_drawing (s : CtrlState) (h : Reachable s) :
    s.drawing_rectangle = false := by
  obtain ⟨m, v, ops, rfl⟩ := h
  exact foldl_applyOp_drawing ops (initCtrl m v) rfl

/-! ### The controller claims -/

/-- C7: disabling capture forces the model-side record flag to false and
sets the record UI control, when it exists, to reflect off; enabling
capture performs the gate notify bracketed by the mutex acquire/release
(`with cv_capture: cv_capture.notify()`), releasing a parked producer. -/
theorem toggle_capture_record_and_gate (s : CtrlState) :
    ((on_toggle_capture false s).1.model.flag_record = false ∧
      (∀ b, s.view.toggle_record = some b →
        (on_toggle_capture false s).1.view.toggle_record = some false)) ∧
    ((on_toggle_capture true s).2 =
        [GateOp.acquire, GateOp.notify, GateOp.release] ∧
      runGateOps 1 (on_toggle_capture true s).2 = 0) := by
  refine ⟨⟨?_, ?_⟩, ?_, ?_⟩
  · cases htr : s.view.toggle_record with
    | none => simp [on_toggle_capture, on_toggle_record, htr]
    | some v => simp [on_toggle_capture, on_toggle_record, htr]
  · intro b hb
    simp [on_toggle_capture, on_toggle_record, hb]
  · simp [on_toggle_capture]
  · simp [on_toggle_capture, runGateOps, gateStep]

/-- C7 witness state: capturing and recording are on, the record control
exists and shows on. -/
def sampleCtrl : CtrlState :=
  { model :=
      { flag_capture := true, flag_record := true, flag_exit := false,
        flag_save_pcd := false, flag_save_rgbd := false,
        flag_normals := false, flag_model_init := false,
        model_init_calls := 0 },
    view :=
      { capturing := true, edit_mode := false,
        mouse_handler_installed := false, toggle_record := some true,
        flag_normals := false, flag_gui_init := true },
    drawing_rectangle := false }

/-- C7 witness: at `sampleCtrl` (recording on, record control showing on),
disabling capture turns the record flag and control off; enabling capture
emits the acquire/notify/release trace, waking the one parked producer. -/
theorem toggle_capture_record_and_gate_witness :
    ((on_toggle_capture false sampleCtrl).1.model.flag_record = false ∧
      (on_toggle_capture false sampleCtrl).1.view.toggle_record =
        some false) ∧
    ((on_toggle_capture true sampleCtrl).2 =
        [GateOp.acquire, GateOp.notify, GateOp.release] ∧
      runGateOps 1 (on_toggle_capture true sampleCtrl).2 = 0) := by
  obtain ⟨⟨h1, h2⟩, h3, h4⟩ := toggle_capture_record_and_gate sampleCtrl
  exact ⟨⟨h1, h2 true rfl⟩, h3, h4⟩

/-- C8: `on_window_close` sets the exit-requested flag, performs
notify_all — not a single notify — on the CaptureGate while holding its
mutex (the trace brackets the notify_all between acquire and release),
wakes every parked waiter, and returns the affirmative ok-to-close
signal. -/
theorem window_close_exit_notify_all (s : CtrlState) :
    (on_window_close s).1.1.model.flag_exit = true ∧
    (on_window_close s).1.2 =
      [GateOp.acquire, GateOp.notifyAll, GateOp.release] ∧
    (∀ w : ℕ, runGateOps w (on_window_close s).1.2 = 0) ∧
    (on_window_close s).2 = true := by
  refine ⟨rfl, rfl, fun w => ?_, rfl⟩
  simp [on_window_close, runGateOps, gateStep]

/-- C9: out-of-bounds click pixels are normalised to the far-plane
sentinel 1.0; a sampled depth equal to the sentinel reports "no hit"; any
other depth reports the 3-component world coordinate unprojected through
the current camera; and in both cases the callback's only effect is a
single post of the label update to the UI thread. -/
theorem depth_pick_protocol (rows cols : ℤ) (depth_array : ℤ → ℤ → ℚ)
    (unproject : ℤ → ℤ → ℚ → ℚ × ℚ × ℚ) (x y : ℤ) :
    (¬(y < rows ∧ x < cols) → sampleDepth rows cols depth_array x y = 1) ∧
    (sampleDepth rows cols depth_array x y = 1 →
      depth_callback rows cols depth_array unproject x y =
        [UIEffect.postToMain PickText.noHit]) ∧
    (sampleDepth rows cols depth_array x y ≠ 1 →
      depth_callback rows cols depth_array unproject x y =
        [UIEffect.postToMain (PickText.coord
          (unproject x y (sampleDepth rows cols depth_array x y)))]) := by
  refine ⟨fun hout => ?_, fun hfar => ?_, fun hnear => ?_⟩
  · unfold sampleDepth
    rw [if_neg hout]
  · unfold depth_callback
    dsimp only
    rw [if_pos hfar]
  · unfold depth_callback
    dsimp only
    rw [if_neg hnear]

/-- C9 witness depth image: 2×2, depth 1/4 at (0, 0), far plane 1.0
elsewhere. -/
def sampleDepthArray : ℤ → ℤ → ℚ :=
  fun v u => if v = 0 ∧ u = 0 then 1/4 else 1

/-- C9 witness unprojection: a camera model carrying the pixel and depth
into the world coordinate. -/
def sampleUnproject : ℤ → ℤ → ℚ → ℚ × ℚ × ℚ :=
  fun x y d => ((x : ℚ), (y : ℚ), d)

/-- C9 witness: the click at (5, 5) is outside the 2×2 depth image, is
normalised to the sentinel and reports "no hit"; the click at (0, 0)
samples 1/4 and reports the unprojected world coordinate. -/
theorem depth_pick_protocol_witness :
    sampleDepth 2 2 sampleDepthArray 5 5 = 1 ∧
    depth_callback 2 2 sampleDepthArray sampleUnproject 5 5 =
      [UIEffect.postToMain PickText.noHit] ∧
    depth_callback 2 2 sampleDepthArray sampleUnproject 0 0 =
      [UIEffect.postToMain (PickText.coord (sampleUnproject 0 0 (1/4)))] := by
  obtain ⟨hout, hfar, -⟩ :=
    depth_pick_protocol 2 2 sampleDepthArray sampleUnproject 5 5
  obtain ⟨-, -, hnear⟩ :=
    depth_pick_protocol 2 2 sampleDepthArray sampleUnproject 0 0
  have h55 : sampleDepth 2 2 sampleDepthArray 5 5 = 1 := hout (by decide)
  have h00 : sampleDepth 2 2 sampleDepthArray 0 0 = 1/4 := by
    norm_num [sampleDepth, sampleDepthArray]
  refine ⟨h55, hfar h55, ?_⟩
  have := hnear (by rw [h00]; norm_num)
  rw [h00] at this
  exact this

/-- C10: `drawing_rectangle` is initialised to `False` and no controller
operation ever sets it to `True`, so the Drawing gesture state is
unreachable: in every reachable controller state, every DRAG or BUTTON_UP
pointer event yields the ignored result, leaves the state unchanged, and
issues no depth query. -/
theorem drawing_state_unreachable (s : CtrlState) (h : Reachable s)
    (f : Frame) (e : MouseEvent)
    (he : e.type = MouseEventType.drag ∨ e.type = MouseEventType.buttonUp) :
    s.drawing_rectangle = false ∧
    on_mouse_widget3d f e s = (s, EventResult.ignored, none) := by
  have hd := reachable_not_drawing s h
  refine ⟨hd, ?_⟩
  unfold on_mouse_widget3d
  split
  · rfl
  split
  · rfl
  have hC1 : ¬(e.type = MouseEventType.buttonDown ∧ e.ctrlDown = true ∧
      e.leftDown = true) := by
    rintro ⟨hbd, -⟩
    rcases he with he | he <;> rw [he] at hbd <;>
      exact MouseEventType.noConfusion hbd
  have hC2 : ¬(e.type = MouseEventType.drag ∧
      s.drawing_rectangle = true) := by
    rintro ⟨-, hdr⟩
    rw [hd] at hdr
    exact Bool.false_ne_true hdr
  have hC3 : ¬(e.type = MouseEventType.buttonUp ∧
      s.drawing_rectangle = true) := by
    rintro ⟨-, hdr⟩
    rw [hd] at hdr
    exact Bool.false_ne_true hdr
  rw [if_neg hC1, if_neg hC2, if_neg hC3]

/-- C10 witness state pieces: a view in edit mode, not capturing. -/
def sampleView : ViewState :=
  { capturing := false, edit_mode := true, mouse_handler_installed := true,
    toggle_record := some false, flag_normals := false,
    flag_gui_init := true }

/-- C10 witness: in the freshly-constructed controller (reachable by the
empty run), a DRAG event over the viewport is ignored and changes
nothing. -/
theorem drawing_state_unreachable_witness :
    (initCtrl sampleCtrl.model sampleView).drawing_rectangle = false ∧
    on_mouse_widget3d ⟨0, 0, 640, 480⟩
        ⟨MouseEventType.drag, false, true, 10, 10⟩
        (initCtrl sampleCtrl.model sampleView) =
      (initCtrl sampleCtrl.model sampleView, EventResult.ignored, none) :=
  drawing_state_unreachable (initCtrl sampleCtrl.model sampleView)
    ⟨sampleCtrl.model, sampleView, [], rfl⟩
    ⟨0, 0, 640, 480⟩ ⟨MouseEventType.drag, false, true, 10, 10⟩
    (Or.inl rfl)

end PCS
